import Mathlib

/-!
Verification development for the 3GPP TDoc searcher script (`TDocSearcher.py`).

The script builds a catalog of "meeting" folders from an FTP listing
(`get_meeting_list`), selects a numeric range plus optional ad-hoc folders, and
scans each selected meeting's document subdirectory for files whose names start
with caller-supplied TDoc identifiers, downloading the matches
(`download_docs`).  Pure functions of the script are embedded directly; the FTP
transport and the local file store are modelled by explicit oracles
(`FtpModel`) and explicit state records, with remote failure points represented
as Boolean outcomes of those oracles.
-/

namespace TDoc

/-- Decimal value of a digit run, as Python `int` computes it on group 1 of the
meeting-folder regex. -/
def digitsToNat (ds : List Char) : Nat :=
  ds.foldl (fun n c => 10 * n + (c.toNat - 48)) 0

/-- Python's `str.lower`, restricted to the basic-latin letters the script's
suffix table actually compares against (`Char.toLower` is latin-only).  Written
as a structural map so that the kernel can evaluate it. -/
def strToLower (s : String) : String :=
  String.mk (s.toList.map Char.toLower)

/-- Sub-rank table of `parse_meeting_folder_name` (source lines 137-144),
applied to the already lower-cased suffix. -/
def subRankOfSuffix (s : String) : Int :=
  if s = "b" ∨ s = "bis" then 1
  else if s = "b-e" ∨ s = "bis-e" ∨ s = "b_e" then 2
  else if s = "-e" ∨ s = "_e" then 3
  else 0

/-- Embedding of `parse_meeting_folder_name` (source lines 122-147).
`re.match` on the pattern TSGR1_ digits dot-star is anchored at the start of
the name; group 1 is the maximal digit run after the fixed six-character
"TSGR1_" marker, group 2 the following maximal run of non-newline characters
(Python `.` does not cross a newline); the lower-cased group 2 selects the
sub-rank, and a failed match yields `(-1, 0)`. -/
def parseChars (cs : List Char) : Int × Int :=
  if cs.take 6 = "TSGR1_".toList then
    if ((cs.drop 6).takeWhile Char.isDigit).isEmpty then (-1, 0)
    else
      (Int.ofNat (digitsToNat ((cs.drop 6).takeWhile Char.isDigit)),
       subRankOfSuffix
         (strToLower (String.mk (((cs.drop 6).dropWhile Char.isDigit).takeWhile
             (fun c => c ≠ '\n')))))
  else (-1, 0)

/-- `parse_meeting_folder_name` acts on the folder name's character list. -/
def parse_meeting_folder_name (folder_name : String) : Int × Int :=
  parseChars folder_name.toList

/-- Sub-rank table as worded by the specification: the case-insensitive suffix
maps empty to 0, "b"/"bis" to 1, "b-e"/"bis-e"/"b_e" to 2, "-e"/"_e" to 3, and
any other suffix to 0.  Kept separate from `subRankOfSuffix` so the parser can
be checked against the spec's own wording. -/
def specSubRank (suffix : String) : Int :=
  if strToLower suffix = "" then 0
  else if strToLower suffix = "b" ∨ strToLower suffix = "bis" then 1
  else if strToLower suffix = "b-e" ∨ strToLower suffix = "bis-e" ∨ strToLower suffix = "b_e" then 2
  else if strToLower suffix = "-e" ∨ strToLower suffix = "_e" then 3
  else 0

lemma subRankOfSuffix_toLower_eq_spec (s : String) :
    subRankOfSuffix (strToLower s) = specSubRank s := by
  unfold subRankOfSuffix specSubRank
  by_cases h0 : strToLower s = ""
  · rw [h0]
    decide
  · rw [if_neg h0]

lemma takeWhile_append_all {p : Char → Bool} (l₁ l₂ : List Char)
    (h : ∀ c ∈ l₁, p c = true) :
    (l₁ ++ l₂).takeWhile p = l₁ ++ l₂.takeWhile p := by
  induction l₁ with
  | nil => simp
  | cons a l ih =>
    have ha : p a = true := h a (by simp)
    simp [List.takeWhile_cons_of_pos ha, ih (fun c hc => h c (by simp [hc]))]

lemma dropWhile_append_all {p : Char → Bool} (l₁ l₂ : List Char)
    (h : ∀ c ∈ l₁, p c = true) :
    (l₁ ++ l₂).dropWhile p = l₂.dropWhile p := by
  induction l₁ with
  | nil => simp
  | cons a l ih =>
    have ha : p a = true := h a (by simp)
    simp [List.dropWhile_cons_of_pos ha, ih (fun c hc => h c (by simp [hc]))]

lemma takeWhile_eq_nil_of_head {p : Char → Bool} (l : List Char)
    (h : ∀ c, l.head? = some c → p c = false) :
    l.takeWhile p = [] := by
  cases l with
  | nil => simp
  | cons a l =>
    have ha : p a = false := h a rfl
    exact List.takeWhile_cons_of_neg (by rw [ha]; simp)

lemma dropWhile_eq_self_of_head {p : Char → Bool} (l : List Char)
    (h : ∀ c, l.head? = some c → p c = false) :
    l.dropWhile p = l := by
  cases l with
  | nil => simp
  | cons a l =>
    have ha : p a = false := h a rfl
    exact List.dropWhile_cons_of_neg (by rw [ha]; simp)

/-- C3: for every string name, `parse_meeting_folder_name` returns the digit
run's decimal value paired with the sub-rank of the case-insensitive suffix
(empty 0, b/bis 1, b-e/bis-e/b_e 2, -e/_e 3, anything else 0) whenever the name
starts with the fixed "TSGR1_" marker followed by at least one digit, and
returns `(-1, 0)` for every other name.  The function is a plain Lean function,
hence pure, total and deterministic. -/
theorem claim_C3_parse_characterization :
    (∀ (digits rest : List Char) (name : String),
        name.toList = "TSGR1_".toList ++ digits ++ rest →
        digits ≠ [] →
        (∀ c ∈ digits, c.isDigit = true) →
        (∀ c, rest.head? = some c → c.isDigit = false) →
        parse_meeting_folder_name name =
          (Int.ofNat (digitsToNat digits),
           specSubRank (String.mk (rest.takeWhile (fun c => c ≠ '\n'))))) ∧
    (∀ name : String,
        (∀ c rest, name.toList = "TSGR1_".toList ++ c :: rest → c.isDigit = false) →
        parse_meeting_folder_name name = (-1, 0)) := by
  constructor
  · intro digits rest name h hne hdig hrest
    unfold parse_meeting_folder_name parseChars
    rw [h]
    have h6 : (("TSGR1_".toList ++ digits ++ rest).take 6) = "TSGR1_".toList := by
      rw [List.append_assoc, List.take_append_of_le_length (by decide)]
      decide
    have h7 : (("TSGR1_".toList ++ digits ++ rest).drop 6) = digits ++ rest := by
      rw [List.append_assoc, List.drop_append_of_le_length (by decide)]
      rfl
    rw [if_pos h6, h7]
    rw [takeWhile_append_all digits rest hdig,
        takeWhile_eq_nil_of_head rest hrest,
        dropWhile_append_all digits rest hdig,
        dropWhile_eq_self_of_head rest hrest]
    rw [List.append_nil]
    rw [if_neg (by cases digits with | nil => exact absurd rfl hne | cons a l => simp)]
    rw [subRankOfSuffix_toLower_eq_spec]
  · intro name h
    unfold parse_meeting_folder_name parseChars
    by_cases h6 : name.toList.take 6 = "TSGR1_".toList
    · rw [if_pos h6]
      have hsplit : name.toList = "TSGR1_".toList ++ name.toList.drop 6 := by
        conv_lhs => rw [← List.take_append_drop 6 name.toList, h6]
      cases hd : name.toList.drop 6 with
      | nil => rfl
      | cons c r2 =>
        have hc : c.isDigit = false := h c r2 (by rw [hsplit, hd])
        rw [List.takeWhile_cons_of_neg (by rw [hc]; simp)]
        rfl
    · rw [if_neg h6]

/-- Witness for C3: a matching name with a "b" suffix parses to rank 1, and a
name without the marker parses to `(-1, 0)`. -/
theorem claim_C3_witness :
    parse_meeting_folder_name "TSGR1_100b" = (100, 1) ∧
    parse_meeting_folder_name "hello" = (-1, 0) := by
  constructor
  · have := claim_C3_parse_characterization.1 ['1', '0', '0'] ['b'] "TSGR1_100b"
      (by decide) (by decide) (by decide) (by decide)
    rw [this]
    decide
  · refine claim_C3_parse_characterization.2 "hello" ?_
    intro c rest h
    injection h with h1 _
    exact absurd h1 (by decide)

/-- Embedding of the `MeetingInfo` dataclass (source lines 112-118).
`sort_key` is a Python tuple, modelled as a list of integers; the dataclass
default is the empty tuple, which is what ad-hoc meetings keep. -/
structure MeetingInfo where
  display_name : String
  ftp_path : String
  meeting_type : String
  sort_key : List Int
  main_number : Int
deriving DecidableEq

/-- Oracle model of the FTP transport: `cwdOk p` tells whether entering path
`p` (and listing it) succeeds, `listing p` is the directory listing seen there,
and `downloadOk p f` tells whether retrieving file `f` from directory `p`
completes without raising.  The oracles are time-invariant, matching the
single-connection, no-retry design of the script. -/
structure FtpModel where
  cwdOk : String → Bool
  listing : String → List String
  downloadOk : String → String → Bool

/-- The configuration dictionary fields that the catalog builder and the
retrieval engine read (source `configure_parameters`). -/
structure Config where
  BASE_PATH : String
  AH_BASE_FOLDER : String
  addAdhoc : Bool
  adhocFilterText : String
  DOC_SUBDIR : String
  DOWNLOAD_DIR : String
  start_meeting_range_folder : String
  end_meeting_range_folder : String
  target_doc_prefixes : List String

/-- The classification loop of `get_meeting_list` (source lines 158-205): each
base item is first tried as a numbered meeting, else as the configured ad-hoc
base folder (whose sub-folders without a "." become AH meetings, and whose
access failure is caught and contributes nothing), else ignored. -/
def collectMeetings (ftp : FtpModel) (cfg : Config) : List String → List MeetingInfo
  | [] => []
  | item :: rest =>
    if (parse_meeting_folder_name item).1 ≠ -1 then
      { display_name := item
        ftp_path := cfg.BASE_PATH ++ item ++ "/"
        meeting_type := "Numbered"
        sort_key := [(parse_meeting_folder_name item).1, (parse_meeting_folder_name item).2]
        main_number := (parse_meeting_folder_name item).1 } :: collectMeetings ftp cfg rest
    else if cfg.addAdhoc ∧ cfg.AH_BASE_FOLDER ≠ "" ∧ item = cfg.AH_BASE_FOLDER then
      (if ftp.cwdOk (cfg.BASE_PATH ++ item ++ "/") then
        (ftp.listing (cfg.BASE_PATH ++ item ++ "/")).filterMap (fun sub =>
          if '.' ∈ sub.toList then none
          else some { display_name := cfg.AH_BASE_FOLDER ++ "/" ++ sub
                      ftp_path := cfg.BASE_PATH ++ item ++ "/" ++ sub ++ "/"
                      meeting_type := "AH"
                      sort_key := []
                      main_number := -1 })
      else []) ++ collectMeetings ftp cfg rest
    else collectMeetings ftp cfg rest

/-- First two components of a sort-key tuple (the builder always stores
two-component keys for numbered meetings). -/
def keyPair : List Int → Int × Int
  | a :: b :: _ => (a, b)
  | [a] => (a, 0)
  | [] => (0, 0)

/-- The sort key of line 208: a numbered meeting sorts by its
`(main_num, sub_order)` tuple, every other meeting by `(float('inf'), 0)`.
The leading component models the tag: 0 for a numbered key, 1 for the
infinite key that dominates every numbered one. -/
def sortKeyTriple (m : MeetingInfo) : Int × Int × Int :=
  if m.meeting_type = "Numbered" then (0, keyPair m.sort_key) else (1, 0, 0)

/-- Lexicographic order on the three-component sort keys. -/
def tripleLe (a b : Int × Int × Int) : Prop :=
  a.1 < b.1 ∨ (a.1 = b.1 ∧ (a.2.1 < b.2.1 ∨ (a.2.1 = b.2.1 ∧ a.2.2 ≤ b.2.2)))

instance : DecidableRel tripleLe := fun a b => by
  unfold tripleLe
  infer_instance

/-- The comparison `meetings.sort(key=...)` performs. -/
def mLe (a b : MeetingInfo) : Prop :=
  tripleLe (sortKeyTriple a) (sortKeyTriple b)

instance : DecidableRel mLe := fun a b => by
  unfold mLe
  infer_instance

instance : IsTotal MeetingInfo mLe := by
  refine ⟨fun a b => ?_⟩
  unfold mLe tripleLe
  omega

instance : IsTrans MeetingInfo mLe := by
  refine ⟨fun a b c hab hbc => ?_⟩
  unfold mLe tripleLe at hab hbc ⊢
  omega

/-- `meetings.sort(key=...)` (source line 208): Python's `list.sort` is a
stable ascending sort by the key; insertion sort with the total preorder `mLe`
is exactly that. -/
def sortMeetings (ms : List MeetingInfo) : List MeetingInfo :=
  List.insertionSort mLe ms

/-- Embedding of `get_meeting_list` (source lines 149-217), with the remote
cursor threaded explicitly.  A failure of the top-level `cwd`/`nlst` raises and
is only caught by the outermost handler, which returns `None` with the cursor
unchanged; on the success path every ad-hoc failure is caught locally (see
`collectMeetings`) and the cursor is moved back to `BASE_PATH`, so the call
ends at `BASE_PATH` with the sorted catalog. -/
def get_meeting_list (ftp : FtpModel) (cfg : Config) (cwd0 : String) :
    Option (List MeetingInfo) × String :=
  if ftp.cwdOk cfg.BASE_PATH then
    (some (sortMeetings (collectMeetings ftp cfg (ftp.listing cfg.BASE_PATH))), cfg.BASE_PATH)
  else (none, cwd0)

/-- Strict lexicographic order on ordinal keys, as used by the claim about
catalog ordering. -/
def pairLt (a b : Int × Int) : Prop :=
  a.1 < b.1 ∨ (a.1 = b.1 ∧ a.2 < b.2)

/-- Reflexive lexicographic order on ordinal keys. -/
def pairLe (a b : Int × Int) : Prop :=
  a.1 < b.1 ∨ (a.1 = b.1 ∧ a.2 ≤ b.2)

lemma sortKeyTriple_of_numbered {m : MeetingInfo} (h : m.meeting_type = "Numbered") :
    sortKeyTriple m = (0, keyPair m.sort_key) := by
  unfold sortKeyTriple
  rw [h, if_pos rfl]

lemma sortKeyTriple_of_ah {m : MeetingInfo} (h : m.meeting_type = "AH") :
    sortKeyTriple m = (1, 0, 0) := by
  unfold sortKeyTriple
  rw [h, if_neg (by decide)]

lemma get_meeting_list_sorted {ftp : FtpModel} {cfg : Config} {cwd0 s : String}
    {ms : List MeetingInfo} (h : get_meeting_list ftp cfg cwd0 = (some ms, s)) :
    ∀ (i j : Fin ms.length), i < j → mLe (ms.get i) (ms.get j) := by
  unfold get_meeting_list at h
  by_cases hb : ftp.cwdOk cfg.BASE_PATH
  · rw [if_pos hb] at h
    have hms : ms = sortMeetings (collectMeetings ftp cfg (ftp.listing cfg.BASE_PATH)) :=
      by injection h with h1 h2; exact (Option.some.inj h1).symm
    intro i j hij
    have hs : List.Pairwise mLe ms := by
      rw [hms]
      exact List.sorted_insertionSort mLe _
    exact List.pairwise_iff_get.mp hs i j hij
  · rw [if_neg hb] at h
    simp at h

/-- C5 counterexample: two distinct base folders, "TSGR1_100bis" discovered
before "TSGR1_100b", parse to the identical ordinal key (100, 1); the builder
keeps both, the first precedes the second, yet its key is not lexicographically
less — so "A precedes B iff A.ordinalKey < B.ordinalKey" fails on this catalog. -/
theorem claim_C5_counterexample :
    (get_meeting_list
        { cwdOk := fun _ => true
          listing := fun p => if p = "/base/" then ["TSGR1_100bis", "TSGR1_100b"] else []
          downloadOk := fun _ _ => true }
        { BASE_PATH := "/base/", AH_BASE_FOLDER := "TSGR1_AH", addAdhoc := false
          adhocFilterText := "", DOC_SUBDIR := "Docs", DOWNLOAD_DIR := "dl"
          start_meeting_range_folder := "TSGR1_100", end_meeting_range_folder := "TSGR1_101"
          target_doc_prefixes := [] } "/").1 =
      some [{ display_name := "TSGR1_100bis", ftp_path := "/base/TSGR1_100bis/"
              meeting_type := "Numbered", sort_key := [100, 1], main_number := 100 },
            { display_name := "TSGR1_100b", ftp_path := "/base/TSGR1_100b/"
              meeting_type := "Numbered", sort_key := [100, 1], main_number := 100 }] ∧
    ¬ pairLt (keyPair [100, 1]) (keyPair [100, 1]) := by
  constructor
  · decide
  · unfold pairLt keyPair
    omega

/-- C5 (amended): in every catalog produced by the builder, for Numbered
containers A before B the ordinal key of A is lexicographically at most that of
B (equal keys are possible, as the counterexample shows); a strictly smaller
key always comes first; and every Categorical (AH) container appears after
every Numbered container. -/
theorem claim_C5_catalog_order :
    ∀ (ftp : FtpModel) (cfg : Config) (cwd0 : String) (ms : List MeetingInfo) (s : String),
      get_meeting_list ftp cfg cwd0 = (some ms, s) →
      (∀ i j : Fin ms.length, i < j →
        (ms.get i).meeting_type = "Numbered" → (ms.get j).meeting_type = "Numbered" →
        pairLe (keyPair (ms.get i).sort_key) (keyPair (ms.get j).sort_key)) ∧
      (∀ i j : Fin ms.length,
        (ms.get i).meeting_type = "Numbered" → (ms.get j).meeting_type = "Numbered" →
        pairLt (keyPair (ms.get i).sort_key) (keyPair (ms.get j).sort_key) → i < j) ∧
      (∀ i j : Fin ms.length,
        (ms.get i).meeting_type = "AH" → (ms.get j).meeting_type = "Numbered" → j < i) := by
  intro ftp cfg cwd0 ms s h
  have hget := get_meeting_list_sorted h
  refine ⟨?_, ?_, ?_⟩
  · intro i j hij h1 h2
    have hm := hget i j hij
    unfold mLe at hm
    rw [sortKeyTriple_of_numbered h1, sortKeyTriple_of_numbered h2] at hm
    unfold tripleLe at hm
    unfold pairLe
    dsimp only at hm
    omega
  · intro i j h1 h2 hlt
    by_contra hc
    rcases Nat.lt_or_ge j.val i.val with hji | hij
    · have hm := hget j i (by exact hji)
      unfold mLe at hm
      rw [sortKeyTriple_of_numbered h2, sortKeyTriple_of_numbered h1] at hm
      unfold tripleLe at hm
      unfold pairLt at hlt
      dsimp only at hm
      omega
    · have hji : j.val = i.val := by
        have : ¬ i.val < j.val := fun hlt' => hc hlt'
        omega
      have hij2 : i = j := Fin.ext hji.symm
      rw [hij2] at hlt
      unfold pairLt at hlt
      omega
  · intro i j hAH hNum
    have hne : i ≠ j := by
      intro he
      rw [he, hNum] at hAH
      exact absurd hAH (by decide)
    have hnotlt : ¬ i < j := by
      intro hij
      have hm := hget i j hij
      unfold mLe at hm
      rw [sortKeyTriple_of_ah hAH, sortKeyTriple_of_numbered hNum] at hm
      unfold tripleLe at hm
      dsimp only at hm
      omega
    have : j.val < i.val := by
      have h1 : ¬ i.val < j.val := hnotlt
      have h2 : i.val ≠ j.val := fun he => hne (Fin.ext he)
      omega
    exact this

/-- Witness for C5: on a catalog built from two ascending numbered folders the
first key is lexicographically at most the second. -/
theorem claim_C5_witness :
    pairLe (keyPair [5, 0]) (keyPair [7, 0]) := by
  have h := claim_C5_catalog_order
    { cwdOk := fun _ => true
      listing := fun p => if p = "/base/" then ["TSGR1_5", "TSGR1_7"] else []
      downloadOk := fun _ _ => true }
    { BASE_PATH := "/base/", AH_BASE_FOLDER := "TSGR1_AH", addAdhoc := false
      adhocFilterText := "", DOC_SUBDIR := "Docs", DOWNLOAD_DIR := "dl"
      start_meeting_range_folder := "TSGR1_5", end_meeting_range_folder := "TSGR1_7"
      target_doc_prefixes := [] } "/"
    [{ display_name := "TSGR1_5", ftp_path := "/base/TSGR1_5/"
       meeting_type := "Numbered", sort_key := [5, 0], main_number := 5 },
     { display_name := "TSGR1_7", ftp_path := "/base/TSGR1_7/"
       meeting_type := "Numbered", sort_key := [7, 0], main_number := 7 }] "/base/"
    (by decide)
  exact h.1 ⟨0, by decide⟩ ⟨1, by decide⟩ (by decide) rfl rfl

/-- C6: if the top-level base path is inaccessible the builder yields no
catalog and leaves the cursor where it was; if the base path is accessible the
builder always returns a catalog with the cursor back at the base path, and an
access failure on the ad-hoc branch merely makes that entry contribute
nothing — the remaining entries still form the catalog. -/
theorem claim_C6_builder_error_handling :
    ∀ (ftp : FtpModel) (cfg : Config) (cwd0 : String),
      (ftp.cwdOk cfg.BASE_PATH = false →
        get_meeting_list ftp cfg cwd0 = (none, cwd0)) ∧
      (ftp.cwdOk cfg.BASE_PATH = true →
        ∃ ms, get_meeting_list ftp cfg cwd0 = (some ms, cfg.BASE_PATH)) ∧
      (∀ item rest,
        cfg.addAdhoc = true → cfg.AH_BASE_FOLDER ≠ "" → item = cfg.AH_BASE_FOLDER →
        (parse_meeting_folder_name item).1 = -1 →
        ftp.cwdOk (cfg.BASE_PATH ++ item ++ "/") = false →
        collectMeetings ftp cfg (item :: rest) = collectMeetings ftp cfg rest) := by
  intro ftp cfg cwd0
  refine ⟨?_, ?_, ?_⟩
  · intro hb
    unfold get_meeting_list
    rw [hb]
    rfl
  · intro hb
    refine ⟨sortMeetings (collectMeetings ftp cfg (ftp.listing cfg.BASE_PATH)), ?_⟩
    unfold get_meeting_list
    rw [hb]
    rfl
  · intro item rest hA hB hC hp hcwd
    show (if (parse_meeting_folder_name item).1 ≠ -1 then _ else _) = _
    rw [if_neg (by rw [hp]; simp), if_pos ⟨hA, hB, hC⟩, if_neg (by rw [hcwd]; simp)]
    exact List.nil_append _

/-- Witness for C6: a concrete model where the base listing holds the ad-hoc
folder (inaccessible) and one numbered folder; the builder still returns a
catalog ending at the base path, the ad-hoc entry contributes nothing, and a
model with an unreachable base path produces no catalog. -/
theorem claim_C6_witness :
    (∃ ms, get_meeting_list
        { cwdOk := fun p => p = "/base/"
          listing := fun p => if p = "/base/" then ["TSGR1_AH", "TSGR1_9"] else ["x"]
          downloadOk := fun _ _ => true }
        { BASE_PATH := "/base/", AH_BASE_FOLDER := "TSGR1_AH", addAdhoc := true
          adhocFilterText := "", DOC_SUBDIR := "Docs", DOWNLOAD_DIR := "dl"
          start_meeting_range_folder := "TSGR1_9", end_meeting_range_folder := "TSGR1_9"
          target_doc_prefixes := [] } "/pwd" = (some ms, "/base/")) ∧
    collectMeetings
        { cwdOk := fun p => p = "/base/"
          listing := fun p => if p = "/base/" then ["TSGR1_AH", "TSGR1_9"] else ["x"]
          downloadOk := fun _ _ => true }
        { BASE_PATH := "/base/", AH_BASE_FOLDER := "TSGR1_AH", addAdhoc := true
          adhocFilterText := "", DOC_SUBDIR := "Docs", DOWNLOAD_DIR := "dl"
          start_meeting_range_folder := "TSGR1_9", end_meeting_range_folder := "TSGR1_9"
          target_doc_prefixes := [] } ["TSGR1_AH", "TSGR1_9"] =
      collectMeetings
        { cwdOk := fun p => p = "/base/"
          listing := fun p => if p = "/base/" then ["TSGR1_AH", "TSGR1_9"] else ["x"]
          downloadOk := fun _ _ => true }
        { BASE_PATH := "/base/", AH_BASE_FOLDER := "TSGR1_AH", addAdhoc := true
          adhocFilterText := "", DOC_SUBDIR := "Docs", DOWNLOAD_DIR := "dl"
          start_meeting_range_folder := "TSGR1_9", end_meeting_range_folder := "TSGR1_9"
          target_doc_prefixes := [] } ["TSGR1_9"] ∧
    get_meeting_list
        { cwdOk := fun _ => false, listing := fun _ => [], downloadOk := fun _ _ => true }
        { BASE_PATH := "/base/", AH_BASE_FOLDER := "TSGR1_AH", addAdhoc := true
          adhocFilterText := "", DOC_SUBDIR := "Docs", DOWNLOAD_DIR := "dl"
          start_meeting_range_folder := "TSGR1_9", end_meeting_range_folder := "TSGR1_9"
          target_doc_prefixes := [] } "/pwd" = (none, "/pwd") := by
  refine ⟨?_, ?_, ?_⟩
  · exact (claim_C6_builder_error_handling _ _ "/pwd").2.1 (by decide)
  · exact (claim_C6_builder_error_handling _ _ "/pwd").2.2 "TSGR1_AH" ["TSGR1_9"]
      rfl (by decide) rfl (by decide) (by decide)
  · exact (claim_C6_builder_error_handling _ _ "/pwd").1 rfl

/-- Python `filename.startswith(doc_prefix)`: plain character-wise match of an
initial segment. -/
def strStartsWith (s pre : String) : Bool :=
  pre.toList.isPrefixOf s.toList

/-- Python `needle in hay` on strings: contiguous-substring containment. -/
def containsSub (hay needle : String) : Bool :=
  decide (List.IsInfix needle.toList hay.toList)

/-- `os.path.join(download_dir, filename)`, specialised to the single
configured download directory. -/
def localPath (cfg : Config) (filename : String) : String :=
  cfg.DOWNLOAD_DIR ++ "/" ++ filename

/-- State mutated by the per-meeting scan of `download_docs`: the set of local
files present in the download directory, the live `remaining_docs` set, the
`found_docs_set`, and the meeting's `downloaded_in_this_meeting` list. -/
structure DlState where
  store : List String
  remaining : List String
  found : List String
  collected : List String
deriving DecidableEq

/-- Body of the match case of `download_docs` (source lines 288-313): when a
listed filename starts with the identifier, either record the already-present
local file, or attempt the download (on success the file now exists locally;
on any raise the partly written file is removed again); afterwards — in every
branch — the identifier is dropped from `remaining_docs` (the `in` guard of
line 311 is the no-op guard of `List.erase`) and added to `found_docs_set`. -/
def processFile (ftp : FtpModel) (cfg : Config) (docs_path d filename : String)
    (st : DlState) : DlState :=
  if localPath cfg filename ∈ st.store then
    { store := st.store
      remaining := st.remaining.erase d
      found := if d ∈ st.found then st.found else d :: st.found
      collected := st.collected ++ [localPath cfg filename] }
  else if ftp.downloadOk docs_path filename then
    { store := localPath cfg filename :: st.store
      remaining := st.remaining.erase d
      found := if d ∈ st.found then st.found else d :: st.found
      collected := st.collected ++ [localPath cfg filename] }
  else
    { store := st.store
      remaining := st.remaining.erase d
      found := if d ∈ st.found then st.found else d :: st.found
      collected := st.collected }

/-- Inner loop of source lines 287-314: scan every listed filename for one
identifier.  The `break` of line 314 is commented out in the source, so the
scan continues past the first match. -/
def scanFiles (ftp : FtpModel) (cfg : Config) (docs_path d : String) :
    List String → DlState → DlState
  | [], st => st
  | f :: fs, st =>
    scanFiles ftp cfg docs_path d fs
      (if strStartsWith f d then processFile ftp cfg docs_path d f st else st)

/-- Outer loop of source line 286: iterate over the snapshot
`docs_to_check_in_this_meeting = list(remaining_docs)` while the live set
mutates. -/
def processSnapshot (ftp : FtpModel) (cfg : Config) (docs_path : String)
    (files : List String) : List String → DlState → DlState
  | [], st => st
  | d :: ds, st =>
    processSnapshot ftp cfg docs_path files ds (scanFiles ftp cfg docs_path d files st)

/-- Whole-run state of `download_docs`: local store, live remaining set, found
set, the per-meeting result dictionary in insertion order, and the trace of
document directories for which a `cwd` was issued. -/
structure RunState where
  store : List String
  remaining : List String
  found : List String
  byMeeting : List (String × List String)
  scanned : List String
deriving DecidableEq

/-- One iteration of the meeting loop (source lines 272-341): enter the
meeting's document directory (recorded in the trace), and when that succeeds,
run the snapshot scan starting from an empty `downloaded_in_this_meeting`;
a non-empty collection is appended to the result dictionary.  A failed `cwd`
skips the meeting with everything but the trace unchanged. -/
def processMeeting (ftp : FtpModel) (cfg : Config) (m : MeetingInfo)
    (st : RunState) : RunState :=
  if ftp.cwdOk (m.ftp_path ++ cfg.DOC_SUBDIR ++ "/") then
    { store := (processSnapshot ftp cfg (m.ftp_path ++ cfg.DOC_SUBDIR ++ "/")
        (ftp.listing (m.ftp_path ++ cfg.DOC_SUBDIR ++ "/")) st.remaining
        ⟨st.store, st.remaining, st.found, []⟩).store
      remaining := (processSnapshot ftp cfg (m.ftp_path ++ cfg.DOC_SUBDIR ++ "/")
        (ftp.listing (m.ftp_path ++ cfg.DOC_SUBDIR ++ "/")) st.remaining
        ⟨st.store, st.remaining, st.found, []⟩).remaining
      found := (processSnapshot ftp cfg (m.ftp_path ++ cfg.DOC_SUBDIR ++ "/")
        (ftp.listing (m.ftp_path ++ cfg.DOC_SUBDIR ++ "/")) st.remaining
        ⟨st.store, st.remaining, st.found, []⟩).found
      byMeeting :=
        if ((processSnapshot ftp cfg (m.ftp_path ++ cfg.DOC_SUBDIR ++ "/")
            (ftp.listing (m.ftp_path ++ cfg.DOC_SUBDIR ++ "/")) st.remaining
            ⟨st.store, st.remaining, st.found, []⟩).collected).isEmpty then st.byMeeting
        else st.byMeeting ++
          [(m.display_name,
            (processSnapshot ftp cfg (m.ftp_path ++ cfg.DOC_SUBDIR ++ "/")
              (ftp.listing (m.ftp_path ++ cfg.DOC_SUBDIR ++ "/")) st.remaining
              ⟨st.store, st.remaining, st.found, []⟩).collected)]
      scanned := st.scanned ++ [m.ftp_path ++ cfg.DOC_SUBDIR ++ "/"] }
  else
    { st with scanned := st.scanned ++ [m.ftp_path ++ cfg.DOC_SUBDIR ++ "/"] }

/-- The meeting loop of source lines 267-270: stop as soon as the live
remaining set is empty at loop entry. -/
def downloadLoop (ftp : FtpModel) (cfg : Config) :
    List MeetingInfo → RunState → RunState
  | [], st => st
  | m :: ms, st =>
    if st.remaining.isEmpty then st
    else downloadLoop ftp cfg ms (processMeeting ftp cfg m st)

/-- The selection loop of source lines 240-252: an AH meeting passes when
ad-hoc scanning is enabled and the filter text (when non-empty) occurs in its
path; a numbered meeting passes when its number lies in the closed range. -/
def meetings_to_scan (cfg : Config) (start_num end_num : Int) :
    List MeetingInfo → List MeetingInfo
  | [] => []
  | m :: rest =>
    if m.meeting_type = "AH" ∧ cfg.addAdhoc = true then
      (if cfg.adhocFilterText ≠ "" then
        (if containsSub m.ftp_path cfg.adhocFilterText then
          m :: meetings_to_scan cfg start_num end_num rest
        else meetings_to_scan cfg start_num end_num rest)
      else m :: meetings_to_scan cfg start_num end_num rest)
    else if m.meeting_type = "Numbered" ∧ start_num ≤ m.main_number ∧ m.main_number ≤ end_num then
      m :: meetings_to_scan cfg start_num end_num rest
    else meetings_to_scan cfg start_num end_num rest

/-- Range handling of source lines 229-252: parse both endpoint folder names,
fail on an unparsable one, swap a reversed pair, then filter the catalog. -/
def selectMeetings (cfg : Config) (all_meetings : List MeetingInfo)
    (startF endF : String) : Option (List MeetingInfo) :=
  if (parse_meeting_folder_name startF).1 = -1 ∨ (parse_meeting_folder_name endF).1 = -1 then
    none
  else if (parse_meeting_folder_name startF).1 > (parse_meeting_folder_name endF).1 then
    some (meetings_to_scan cfg (parse_meeting_folder_name endF).1
      (parse_meeting_folder_name startF).1 all_meetings)
  else
    some (meetings_to_scan cfg (parse_meeting_folder_name startF).1
      (parse_meeting_folder_name endF).1 all_meetings)

/-- Initial run state: `remaining_docs = set(config['target_doc_prefixes'])`.
A Python set has no duplicates and an unspecified iteration order; the model
keeps the first occurrence of each target in input order. -/
def initRunState (cfg : Config) (store0 : List String) : RunState :=
  { store := store0
    remaining := cfg.target_doc_prefixes.eraseDups
    found := []
    byMeeting := []
    scanned := [] }

/-- Embedding of `download_docs` (source lines 220-355): range parsing and
selection, then the early-exiting meeting loop.  An unparsable endpoint
returns the empty result dictionary before any meeting is visited. -/
def download_docs (ftp : FtpModel) (cfg : Config) (all_meetings : List MeetingInfo)
    (store0 : List String) : RunState :=
  match selectMeetings cfg all_meetings
      cfg.start_meeting_range_folder cfg.end_meeting_range_folder with
  | none => initRunState cfg store0
  | some toScan => downloadLoop ftp cfg toScan (initRunState cfg store0)

/-- C7: if either range endpoint fails to parse, the run fails with the range
error: no meeting directory is ever entered and the result dictionary is
empty. -/
theorem claim_C7_range_error :
    ∀ (ftp : FtpModel) (cfg : Config) (all_meetings : List MeetingInfo)
      (store0 : List String),
      ((parse_meeting_folder_name cfg.start_meeting_range_folder).1 = -1 ∨
       (parse_meeting_folder_name cfg.end_meeting_range_folder).1 = -1) →
      (download_docs ftp cfg all_meetings store0).byMeeting = [] ∧
      (download_docs ftp cfg all_meetings store0).scanned = [] := by
  intro ftp cfg all_meetings store0 h
  unfold download_docs selectMeetings
  rw [if_pos h]
  exact ⟨rfl, rfl⟩

/-- Witness for C7: an unparsable start endpoint yields the empty result and
an empty scan trace. -/
theorem claim_C7_witness :
    (download_docs
        { cwdOk := fun _ => true, listing := fun _ => ["x"], downloadOk := fun _ _ => true }
        { BASE_PATH := "/base/", AH_BASE_FOLDER := "TSGR1_AH", addAdhoc := false
          adhocFilterText := "", DOC_SUBDIR := "Docs", DOWNLOAD_DIR := "dl"
          start_meeting_range_folder := "garbage", end_meeting_range_folder := "TSGR1_101"
          target_doc_prefixes := ["R1-1"] }
        [{ display_name := "TSGR1_100", ftp_path := "/base/TSGR1_100/"
           meeting_type := "Numbered", sort_key := [100, 0], main_number := 100 }]
        []).byMeeting = [] ∧
    (download_docs
        { cwdOk := fun _ => true, listing := fun _ => ["x"], downloadOk := fun _ _ => true }
        { BASE_PATH := "/base/", AH_BASE_FOLDER := "TSGR1_AH", addAdhoc := false
          adhocFilterText := "", DOC_SUBDIR := "Docs", DOWNLOAD_DIR := "dl"
          start_meeting_range_folder := "garbage", end_meeting_range_folder := "TSGR1_101"
          target_doc_prefixes := ["R1-1"] }
        [{ display_name := "TSGR1_100", ftp_path := "/base/TSGR1_100/"
           meeting_type := "Numbered", sort_key := [100, 0], main_number := 100 }]
        []).scanned = [] :=
  claim_C7_range_error _ _ _ _ (by decide)

/-- C8: for parsable endpoints, selection with the endpoints given in reversed
numeric order is the very same sequence as with the endpoints in ascending
order — the pair is swapped, not rejected. -/
theorem claim_C8_range_swap :
    ∀ (cfg : Config) (all_meetings : List MeetingInfo) (a b : String),
      (parse_meeting_folder_name a).1 ≠ -1 →
      (parse_meeting_folder_name b).1 ≠ -1 →
      selectMeetings cfg all_meetings a b = selectMeetings cfg all_meetings b a := by
  intro cfg all_meetings a b ha hb
  unfold selectMeetings
  have hA : ¬ ((parse_meeting_folder_name a).1 = -1 ∨
      (parse_meeting_folder_name b).1 = -1) := by
    push_neg
    exact ⟨ha, hb⟩
  have hB : ¬ ((parse_meeting_folder_name b).1 = -1 ∨
      (parse_meeting_folder_name a).1 = -1) := by
    push_neg
    exact ⟨hb, ha⟩
  rw [if_neg hA, if_neg hB]
  rcases lt_trichotomy (parse_meeting_folder_name a).1 (parse_meeting_folder_name b).1
    with h | h | h
  · rw [if_neg (show ¬ (parse_meeting_folder_name a).1 > (parse_meeting_folder_name b).1
        by omega),
      if_pos (show (parse_meeting_folder_name b).1 > (parse_meeting_folder_name a).1
        by omega)]
  · rw [if_neg (show ¬ (parse_meeting_folder_name a).1 > (parse_meeting_folder_name b).1
        by omega),
      if_neg (show ¬ (parse_meeting_folder_name b).1 > (parse_meeting_folder_name a).1
        by omega), h]
  · rw [if_pos (show (parse_meeting_folder_name a).1 > (parse_meeting_folder_name b).1
        by omega),
      if_neg (show ¬ (parse_meeting_folder_name b).1 > (parse_meeting_folder_name a).1
        by omega)]

/-- Witness for C8: a concrete catalog selected with reversed endpoints equals
the ascending selection. -/
theorem claim_C8_witness :
    selectMeetings
      { BASE_PATH := "/base/", AH_BASE_FOLDER := "TSGR1_AH", addAdhoc := false
        adhocFilterText := "", DOC_SUBDIR := "Docs", DOWNLOAD_DIR := "dl"
        start_meeting_range_folder := "TSGR1_100", end_meeting_range_folder := "TSGR1_50"
        target_doc_prefixes := [] }
      [{ display_name := "TSGR1_60", ftp_path := "/base/TSGR1_60/"
         meeting_type := "Numbered", sort_key := [60, 0], main_number := 60 }]
      "TSGR1_100" "TSGR1_50" =
    selectMeetings
      { BASE_PATH := "/base/", AH_BASE_FOLDER := "TSGR1_AH", addAdhoc := false
        adhocFilterText := "", DOC_SUBDIR := "Docs", DOWNLOAD_DIR := "dl"
        start_meeting_range_folder := "TSGR1_100", end_meeting_range_folder := "TSGR1_50"
        target_doc_prefixes := [] }
      [{ display_name := "TSGR1_60", ftp_path := "/base/TSGR1_60/"
         meeting_type := "Numbered", sort_key := [60, 0], main_number := 60 }]
      "TSGR1_50" "TSGR1_100" :=
  claim_C8_range_swap _ _ "TSGR1_100" "TSGR1_50" (by decide) (by decide)

/-- C9: once the remaining target set is empty at loop entry the meeting loop
terminates at once — the run state (including the trace of directory changes
and listings) is returned untouched, so no remote call is issued for any
further meeting. -/
theorem claim_C9_early_exit :
    ∀ (ftp : FtpModel) (cfg : Config) (ms : List MeetingInfo) (st : RunState),
      st.remaining = [] → downloadLoop ftp cfg ms st = st := by
  intro ftp cfg ms st h
  cases ms with
  | nil => rfl
  | cons m rest =>
    unfold downloadLoop
    rw [h]
    rfl

/-- Witness for C9: with nothing remaining, the loop over two meetings leaves
the state — trace included — unchanged. -/
theorem claim_C9_witness :
    downloadLoop
      { cwdOk := fun _ => true, listing := fun _ => ["R1-1.zip"], downloadOk := fun _ _ => true }
      { BASE_PATH := "/base/", AH_BASE_FOLDER := "TSGR1_AH", addAdhoc := false
        adhocFilterText := "", DOC_SUBDIR := "Docs", DOWNLOAD_DIR := "dl"
        start_meeting_range_folder := "TSGR1_100", end_meeting_range_folder := "TSGR1_101"
        target_doc_prefixes := ["R1-1"] }
      [{ display_name := "TSGR1_100", ftp_path := "/base/TSGR1_100/"
         meeting_type := "Numbered", sort_key := [100, 0], main_number := 100 },
       { display_name := "TSGR1_101", ftp_path := "/base/TSGR1_101/"
         meeting_type := "Numbered", sort_key := [101, 0], main_number := 101 }]
      { store := ["dl/R1-1.zip"], remaining := [], found := ["R1-1"]
        byMeeting := [("TSGR1_99", ["dl/R1-1.zip"])], scanned := ["/base/TSGR1_99/Docs/"] } =
      { store := ["dl/R1-1.zip"], remaining := [], found := ["R1-1"]
        byMeeting := [("TSGR1_99", ["dl/R1-1.zip"])], scanned := ["/base/TSGR1_99/Docs/"] } :=
  claim_C9_early_exit _ _ _ _ rfl

lemma processFile_remaining (ftp : FtpModel) (cfg : Config) (docs_path d f : String)
    (st : DlState) :
    (processFile ftp cfg docs_path d f st).remaining = st.remaining.erase d := by
  unfold processFile
  split
  · rfl
  · split
    · rfl
    · rfl

lemma scanFiles_not_mem_remaining (ftp : FtpModel) (cfg : Config) (docs_path d : String)
    (files : List String) :
    ∀ st : DlState, d ∉ st.remaining →
      d ∉ (scanFiles ftp cfg docs_path d files st).remaining := by
  induction files with
  | nil =>
    intro st h
    exact h
  | cons f fs ih =>
    intro st h
    unfold scanFiles
    by_cases hsw : strStartsWith f d = true
    · rw [if_pos hsw]
      apply ih
      rw [processFile_remaining]
      intro hc
      exact h (List.erase_subset _ _ hc)
    · rw [if_neg hsw]
      exact ih st h

lemma scanFiles_erases (ftp : FtpModel) (cfg : Config) (docs_path d : String)
    (files : List String) :
    ∀ st : DlState, st.remaining.Nodup →
      (∃ f ∈ files, strStartsWith f d = true) →
      d ∉ (scanFiles ftp cfg docs_path d files st).remaining := by
  induction files with
  | nil =>
    intro st _ h
    rcases h with ⟨f, hf, _⟩
    cases hf
  | cons f fs ih =>
    intro st hnd hex
    unfold scanFiles
    by_cases hsw : strStartsWith f d = true
    · rw [if_pos hsw]
      apply scanFiles_not_mem_remaining
      rw [processFile_remaining]
      exact hnd.not_mem_erase
    · rw [if_neg hsw]
      apply ih st hnd
      rcases hex with ⟨g, hg, hgsw⟩
      rcases List.mem_cons.mp hg with rfl | hg2
      · exact absurd hgsw hsw
      · exact ⟨g, hg2, hgsw⟩

lemma processFile_collected_of_ok (ftp : FtpModel) (cfg : Config)
    (docs_path d f : String) (st : DlState)
    (hok : ftp.downloadOk docs_path f = true) :
    (processFile ftp cfg docs_path d f st).collected =
      st.collected ++ [localPath cfg f] := by
  unfold processFile
  by_cases h1 : localPath cfg f ∈ st.store
  · rw [if_pos h1]
  · rw [if_neg h1, if_pos hok]

lemma scanFiles_collected (ftp : FtpModel) (cfg : Config) (docs_path d : String)
    (files : List String) :
    ∀ st : DlState,
      (∀ f ∈ files, strStartsWith f d = true → ftp.downloadOk docs_path f = true) →
      (scanFiles ftp cfg docs_path d files st).collected =
        st.collected ++ (files.filter (fun f => strStartsWith f d)).map (localPath cfg) := by
  induction files with
  | nil =>
    intro st _
    simp [scanFiles]
  | cons f fs ih =>
    intro st h
    unfold scanFiles
    by_cases hsw : strStartsWith f d = true
    · rw [if_pos hsw,
        ih _ (fun g hg hgsw => h g (List.mem_cons_of_mem _ hg) hgsw),
        processFile_collected_of_ok ftp cfg docs_path d f st
          (h f (List.mem_cons_self _ _) hsw)]
      simp [List.filter_cons, hsw]
    · rw [if_neg hsw,
        ih st (fun g hg hgsw => h g (List.mem_cons_of_mem _ hg) hgsw)]
      simp [List.filter_cons, hsw]

/-- C1 counterexample: a single container listing two files "D1", "D2" and the
single pending identifier "D".  Both filenames prefix-match, both are
retrieved, and the container's result list holds two files for the one
identifier — refuting "no further filenames are matched … at most one file is
collected per identifier per container" (the `break` of source line 314 is
commented out). -/
theorem claim_C1_counterexample :
    (download_docs
        { cwdOk := fun _ => true
          listing := fun p => if p = "/base/TSGR1_100/Docs/" then ["D1", "D2"] else []
          downloadOk := fun _ _ => true }
        { BASE_PATH := "/base/", AH_BASE_FOLDER := "TSGR1_AH", addAdhoc := false
          adhocFilterText := "", DOC_SUBDIR := "Docs", DOWNLOAD_DIR := "dl"
          start_meeting_range_folder := "TSGR1_100", end_meeting_range_folder := "TSGR1_100"
          target_doc_prefixes := ["D"] }
        [{ display_name := "TSGR1_100", ftp_path := "/base/TSGR1_100/"
           meeting_type := "Numbered", sort_key := [100, 0], main_number := 100 }]
        []).byMeeting = [("TSGR1_100", ["dl/D1", "dl/D2"])] ∧
    (["D"] : List String).length = 1 ∧ (["dl/D1", "dl/D2"] : List String).length = 2 := by
  refine ⟨?_, rfl, rfl⟩
  decide

/-- C1 (amended): once a listed filename prefix-matches a pending identifier,
the identifier is removed from the remaining set (for a duplicate-free
remaining set it is no longer pending afterwards), but the scan over the
listed filenames continues for that same identifier: every listed filename
that prefix-matches it is processed, so several files can be collected for one
identifier within one container (all of them, when every matching download
succeeds). -/
theorem claim_C1_match_bookkeeping :
    ∀ (ftp : FtpModel) (cfg : Config) (docs_path d : String) (files : List String)
      (st : DlState),
      (st.remaining.Nodup → (∃ f ∈ files, strStartsWith f d = true) →
        d ∉ (scanFiles ftp cfg docs_path d files st).remaining) ∧
      ((∀ f ∈ files, strStartsWith f d = true → ftp.downloadOk docs_path f = true) →
        (scanFiles ftp cfg docs_path d files st).collected =
          st.collected ++
            (files.filter (fun f => strStartsWith f d)).map (localPath cfg)) :=
  fun ftp cfg docs_path d files st =>
    ⟨fun hnd hex => scanFiles_erases ftp cfg docs_path d files st hnd hex,
     fun h => scanFiles_collected ftp cfg docs_path d files st h⟩

/-- Witness for C1: identifier "D" against listing ["D1", "D2"] — after the
scan "D" is no longer pending, and both matching files were collected. -/
theorem claim_C1_witness :
    "D" ∉ (scanFiles
        { cwdOk := fun _ => true, listing := fun _ => [], downloadOk := fun _ _ => true }
        { BASE_PATH := "/base/", AH_BASE_FOLDER := "TSGR1_AH", addAdhoc := false
          adhocFilterText := "", DOC_SUBDIR := "Docs", DOWNLOAD_DIR := "dl"
          start_meeting_range_folder := "TSGR1_100", end_meeting_range_folder := "TSGR1_100"
          target_doc_prefixes := ["D"] }
        "/p/" "D" ["D1", "D2"] ⟨[], ["D"], [], []⟩).remaining ∧
    (scanFiles
        { cwdOk := fun _ => true, listing := fun _ => [], downloadOk := fun _ _ => true }
        { BASE_PATH := "/base/", AH_BASE_FOLDER := "TSGR1_AH", addAdhoc := false
          adhocFilterText := "", DOC_SUBDIR := "Docs", DOWNLOAD_DIR := "dl"
          start_meeting_range_folder := "TSGR1_100", end_meeting_range_folder := "TSGR1_100"
          target_doc_prefixes := ["D"] }
        "/p/" "D" ["D1", "D2"] ⟨[], ["D"], [], []⟩).collected =
      [] ++ ((["D1", "D2"] : List String).filter (fun f => strStartsWith f "D")).map
        (localPath
          { BASE_PATH := "/base/", AH_BASE_FOLDER := "TSGR1_AH", addAdhoc := false
            adhocFilterText := "", DOC_SUBDIR := "Docs", DOWNLOAD_DIR := "dl"
            start_meeting_range_folder := "TSGR1_100", end_meeting_range_folder := "TSGR1_100"
            target_doc_prefixes := ["D"] }) := by
  refine ⟨(claim_C1_match_bookkeeping _ _ "/p/" "D" ["D1", "D2"] ⟨[], ["D"], [], []⟩).1
    (by decide) ⟨"D1", by decide, by decide⟩,
    (claim_C1_match_bookkeeping _ _ "/p/" "D" ["D1", "D2"] ⟨[], ["D"], [], []⟩).2
    (by decide)⟩

/-- C2: when a matched filename's download raises, the partly written local
file is removed (the store is unchanged), the path is not appended to the
meeting's result list, yet the identifier is removed from the remaining set
and added to the found set; the scan then moves on to the next listed
filename. -/
theorem claim_C2_failed_download :
    ∀ (ftp : FtpModel) (cfg : Config) (docs_path d f : String) (st : DlState)
      (rest : List String),
      localPath cfg f ∉ st.store →
      ftp.downloadOk docs_path f = false →
      ((processFile ftp cfg docs_path d f st).store = st.store ∧
       (processFile ftp cfg docs_path d f st).collected = st.collected ∧
       (processFile ftp cfg docs_path d f st).remaining = st.remaining.erase d ∧
       d ∈ (processFile ftp cfg docs_path d f st).found) ∧
      (strStartsWith f d = true →
        scanFiles ftp cfg docs_path d (f :: rest) st =
          scanFiles ftp cfg docs_path d rest (processFile ftp cfg docs_path d f st)) := by
  intro ftp cfg docs_path d f st rest hmem hdl
  constructor
  · have hnd : ¬ (ftp.downloadOk docs_path f = true) := by
      rw [hdl]
      simp
    unfold processFile
    rw [if_neg hmem, if_neg hnd]
    refine ⟨rfl, rfl, rfl, ?_⟩
    dsimp only
    by_cases hd : d ∈ st.found
    · rw [if_pos hd]
      exact hd
    · rw [if_neg hd]
      exact List.mem_cons_self _ _
  · intro hsw
    conv_lhs => rw [scanFiles]
    rw [if_pos hsw]

/-- Witness for C2: a failing download of the matched "R1-99.zip" leaves store
and result list unchanged while "R1-9" is erased from remaining and marked
found, and scanning continues on the rest of the listing. -/
theorem claim_C2_witness :
    ((processFile
        { cwdOk := fun _ => true, listing := fun _ => [], downloadOk := fun _ _ => false }
        { BASE_PATH := "/base/", AH_BASE_FOLDER := "TSGR1_AH", addAdhoc := false
          adhocFilterText := "", DOC_SUBDIR := "Docs", DOWNLOAD_DIR := "dl"
          start_meeting_range_folder := "TSGR1_100", end_meeting_range_folder := "TSGR1_100"
          target_doc_prefixes := ["R1-9"] }
        "/p/" "R1-9" "R1-99.zip" ⟨[], ["R1-9"], [], []⟩).store = [] ∧
     (processFile
        { cwdOk := fun _ => true, listing := fun _ => [], downloadOk := fun _ _ => false }
        { BASE_PATH := "/base/", AH_BASE_FOLDER := "TSGR1_AH", addAdhoc := false
          adhocFilterText := "", DOC_SUBDIR := "Docs", DOWNLOAD_DIR := "dl"
          start_meeting_range_folder := "TSGR1_100", end_meeting_range_folder := "TSGR1_100"
          target_doc_prefixes := ["R1-9"] }
        "/p/" "R1-9" "R1-99.zip" ⟨[], ["R1-9"], [], []⟩).collected = [] ∧
     (processFile
        { cwdOk := fun _ => true, listing := fun _ => [], downloadOk := fun _ _ => false }
        { BASE_PATH := "/base/", AH_BASE_FOLDER := "TSGR1_AH", addAdhoc := false
          adhocFilterText := "", DOC_SUBDIR := "Docs", DOWNLOAD_DIR := "dl"
          start_meeting_range_folder := "TSGR1_100", end_meeting_range_folder := "TSGR1_100"
          target_doc_prefixes := ["R1-9"] }
        "/p/" "R1-9" "R1-99.zip" ⟨[], ["R1-9"], [], []⟩).remaining =
        (["R1-9"] : List String).erase "R1-9" ∧
     "R1-9" ∈ (processFile
        { cwdOk := fun _ => true, listing := fun _ => [], downloadOk := fun _ _ => false }
        { BASE_PATH := "/base/", AH_BASE_FOLDER := "TSGR1_AH", addAdhoc := false
          adhocFilterText := "", DOC_SUBDIR := "Docs", DOWNLOAD_DIR := "dl"
          start_meeting_range_folder := "TSGR1_100", end_meeting_range_folder := "TSGR1_100"
          target_doc_prefixes := ["R1-9"] }
        "/p/" "R1-9" "R1-99.zip" ⟨[], ["R1-9"], [], []⟩).found) ∧
    (strStartsWith "R1-99.zip" "R1-9" = true →
      scanFiles
        { cwdOk := fun _ => true, listing := fun _ => [], downloadOk := fun _ _ => false }
        { BASE_PATH := "/base/", AH_BASE_FOLDER := "TSGR1_AH", addAdhoc := false
          adhocFilterText := "", DOC_SUBDIR := "Docs", DOWNLOAD_DIR := "dl"
          start_meeting_range_folder := "TSGR1_100", end_meeting_range_folder := "TSGR1_100"
          target_doc_prefixes := ["R1-9"] }
        "/p/" "R1-9" ["R1-99.zip", "other.zip"] ⟨[], ["R1-9"], [], []⟩ =
      scanFiles
        { cwdOk := fun _ => true, listing := fun _ => [], downloadOk := fun _ _ => false }
        { BASE_PATH := "/base/", AH_BASE_FOLDER := "TSGR1_AH", addAdhoc := false
          adhocFilterText := "", DOC_SUBDIR := "Docs", DOWNLOAD_DIR := "dl"
          start_meeting_range_folder := "TSGR1_100", end_meeting_range_folder := "TSGR1_100"
          target_doc_prefixes := ["R1-9"] }
        "/p/" "R1-9" ["other.zip"]
        (processFile
          { cwdOk := fun _ => true, listing := fun _ => [], downloadOk := fun _ _ => false }
          { BASE_PATH := "/base/", AH_BASE_FOLDER := "TSGR1_AH", addAdhoc := false
            adhocFilterText := "", DOC_SUBDIR := "Docs", DOWNLOAD_DIR := "dl"
            start_meeting_range_folder := "TSGR1_100", end_meeting_range_folder := "TSGR1_100"
            target_doc_prefixes := ["R1-9"] }
          "/p/" "R1-9" "R1-99.zip" ⟨[], ["R1-9"], [], []⟩)) :=
  claim_C2_failed_download _ _ "/p/" "R1-9" "R1-99.zip" ⟨[], ["R1-9"], [], []⟩
    ["other.zip"] (by decide) rfl

/-- C10: one listed filename "D1x" prefix-matches the two pending identifiers
"D1" and "D" in the same container: the first match downloads the file, the
second match finds it already present and appends the identical path again, so
the container's result list holds the same local path twice. -/
theorem claim_C10_duplicate_result_paths :
    (download_docs
        { cwdOk := fun _ => true
          listing := fun p => if p = "/base/TSGR1_100/Docs/" then ["D1x"] else []
          downloadOk := fun _ _ => true }
        { BASE_PATH := "/base/", AH_BASE_FOLDER := "TSGR1_AH", addAdhoc := false
          adhocFilterText := "", DOC_SUBDIR := "Docs", DOWNLOAD_DIR := "dl"
          start_meeting_range_folder := "TSGR1_100", end_meeting_range_folder := "TSGR1_100"
          target_doc_prefixes := ["D1", "D"] }
        [{ display_name := "TSGR1_100", ftp_path := "/base/TSGR1_100/"
           meeting_type := "Numbered", sort_key := [100, 0], main_number := 100 }]
        []).byMeeting = [("TSGR1_100", ["dl/D1x", "dl/D1x"])] ∧
    ¬ (["dl/D1x", "dl/D1x"] : List String).Nodup := by
  constructor
  · decide
  · decide

/-- The selection condition exactly as the claim words it: a Numbered
container with its number inside the closed range, or — with the categorical
flag enabled — a Categorical container whose path contains the filter text as
a substring (the empty filter contains-matches every path). -/
def selectedByClaim (cfg : Config) (start_num end_num : Int) (m : MeetingInfo) : Bool :=
  decide (m.meeting_type = "Numbered" ∧
    start_num ≤ m.main_number ∧ m.main_number ≤ end_num) ||
  (cfg.addAdhoc && decide (m.meeting_type = "AH") &&
    containsSub m.ftp_path cfg.adhocFilterText)

lemma containsSub_empty_true (hay : String) : containsSub hay "" = true := by
  unfold containsSub
  exact decide_eq_true ⟨[], hay.toList, by simp⟩

/-- C4: the selection loop is exactly the order-preserving filter of the
catalog by the claim's condition: Numbered containers with `main_number` in
the closed range, plus — only when ad-hoc scanning is enabled — AH containers
whose path contains the filter text, the empty filter matching all of them. -/
theorem claim_C4_selection_is_filter :
    ∀ (cfg : Config) (start_num end_num : Int) (l : List MeetingInfo),
      meetings_to_scan cfg start_num end_num l =
        l.filter (selectedByClaim cfg start_num end_num) := by
  intro cfg s e l
  induction l with
  | nil => rfl
  | cons m rest ih =>
    rw [List.filter_cons]
    unfold meetings_to_scan
    by_cases h1 : m.meeting_type = "AH" ∧ cfg.addAdhoc = true
    · rw [if_pos h1]
      have hnum : decide (m.meeting_type = "Numbered" ∧
          s ≤ m.main_number ∧ m.main_number ≤ e) = false := by
        apply decide_eq_false
        intro hc
        rw [h1.1] at hc
        exact absurd hc.1 (by decide)
      by_cases h2 : cfg.adhocFilterText = ""
      · rw [if_neg (not_not_intro h2)]
        have hp : selectedByClaim cfg s e m = true := by
          unfold selectedByClaim
          rw [hnum, decide_eq_true h1.1, h1.2, h2, containsSub_empty_true]
          rfl
        rw [if_pos hp, ih]
      · rw [if_pos h2]
        by_cases h3 : containsSub m.ftp_path cfg.adhocFilterText = true
        · rw [if_pos h3]
          have hp : selectedByClaim cfg s e m = true := by
            unfold selectedByClaim
            rw [hnum, decide_eq_true h1.1, h1.2, h3]
            rfl
          rw [if_pos hp, ih]
        · rw [if_neg h3]
          have hcf : containsSub m.ftp_path cfg.adhocFilterText = false := by
            revert h3
            cases containsSub m.ftp_path cfg.adhocFilterText
            · intro _
              rfl
            · intro h3
              exact absurd rfl h3
          have hp : ¬ (selectedByClaim cfg s e m = true) := by
            unfold selectedByClaim
            rw [hnum, decide_eq_true h1.1, h1.2, hcf]
            simp
          rw [if_neg hp, ih]
    · rw [if_neg h1]
      have hah : (cfg.addAdhoc && decide (m.meeting_type = "AH") &&
          containsSub m.ftp_path cfg.adhocFilterText) = false := by
        by_cases hT : m.meeting_type = "AH"
        · have hA : cfg.addAdhoc = false := by
            cases hAd : cfg.addAdhoc with
            | false => rfl
            | true => exact absurd ⟨hT, hAd⟩ h1
          rw [hA]
          simp
        · rw [decide_eq_false hT]
          simp
      by_cases h4 : m.meeting_type = "Numbered" ∧ s ≤ m.main_number ∧ m.main_number ≤ e
      · rw [if_pos h4]
        have hp : selectedByClaim cfg s e m = true := by
          unfold selectedByClaim
          rw [decide_eq_true h4, hah]
          rfl
        rw [if_pos hp, ih]
      · rw [if_neg h4]
        have hp : ¬ (selectedByClaim cfg s e m = true) := by
          unfold selectedByClaim
          rw [decide_eq_false h4, hah]
          simp
        rw [if_neg hp, ih]

end TDoc
